import Mathlib

/-!
Verification of the cost-basis tracking and financial-statement pipeline of
the wallet-financial-statement repository.

The development shallowly embeds the core accounting code:

* `src/services/cost_basis_tracker.py` — the `CostBasisTracker` class: the
  per-token lot ledger, FIFO/LIFO disposal matching, and the realized-gains
  log (`_add_acquisition`, `_process_disposal`,
  `get_realized_gains_for_period`).
* `src/services/financial_statements.py` — the balance-sheet generation of
  `FinancialStatementsGenerator.generate_balance_sheet`.
* `src/services/wallet_analyzer.py` — the Form-8949 fragment walk of
  `WalletAnalyzer.generate_tax_report`.

Modelling conventions:

* Python floats are modelled as exact rationals (`ℚ`); the decimal literal
  `1e-10` is read as the rational `1 / 10 ^ 10`.
* Python dicts (which preserve insertion order) are modelled as association
  lists; `defaultdict(list)` reads of absent keys yield `[]`.
* `list.sort` (Timsort) is a stable sort, and a stable sort's output is
  uniquely determined by the comparator, so it is embedded as Mathlib's
  stable `List.insertionSort`.  `sort(key=..., reverse=True)` is stable with
  ties keeping input order, which matches `insertionSort` under the reversed
  comparator.
* `datetime.fromtimestamp(ts).strftime('%Y-%m-%d')` depends on the host
  timezone; it is modelled by an abstract formatter argument
  `fmt : ℤ → String` threaded through the operations.
-/

namespace WalletFS

/-- Numerical tolerance used by the disposal-matching loop
(`remaining_to_sell > 1e-10`) and the balance-sheet dust filter
(`abs(total_quantity) < 1e-10`).  The decimal literal `1e-10` is modelled by
the exact rational `1 / 10 ^ 10`. -/
def tol : ℚ := 1 / 10 ^ 10

/-- An acquisition lot, as appended by `CostBasisTracker._add_acquisition`
(`cost_basis_tracker.py`, lines 98–105). -/
structure Lot where
  quantity : ℚ
  cost_per_unit : ℚ
  total_cost : ℚ
  timestamp : ℤ
  tx_hash : String
  acquisition_date : String
  deriving DecidableEq

/-- A lot-usage fragment of a disposal, as appended to `lots_used` inside
`CostBasisTracker._process_disposal` (lines 165–171 and 180–186). -/
structure LotUsage where
  quantity : ℚ
  cost_basis : ℚ
  proceeds : ℚ
  acquisition_date : String
  holding_period_days : ℚ
  deriving DecidableEq

/-- A disposal record, as built by `CostBasisTracker._process_disposal`.
`note` is `some "zero_cost_basis"` exactly on the zero-cost-basis path
(line 134); the Python dicts built on the other paths carry no `note` key,
modelled here as `note = none`.  The early-return record for a non-positive
quantity (lines 118–124) carries only the five numeric/list keys in Python;
the embedding fills the remaining fields from the call's arguments, and no
theorem below depends on those fields of that record. -/
structure DisposalRecord where
  timestamp : ℤ
  tx_hash : String
  disposal_date : String
  token : String
  quantity_disposed : ℚ
  total_proceeds : ℚ
  total_cost_basis : ℚ
  realized_gain_loss : ℚ
  lots_used : List LotUsage
  note : Option String
  deriving DecidableEq

/-- The mutable state of a `CostBasisTracker` instance: the configured
method string, the per-token lot lists (`self.lots`, an insertion-ordered
dict), the `realized_gains` list of amounts, and the append-only `disposals`
log. -/
structure CostBasisTracker where
  method : String
  lots : List (String × List Lot)
  realized_gains : List ℚ
  disposals : List DisposalRecord
  deriving DecidableEq

/-- `CostBasisTracker.__init__`: empty ledger with the configured method. -/
def initTracker (method : String) : CostBasisTracker :=
  { method := method, lots := [], realized_gains := [], disposals := [] }

/-- Read the lot list bound to `token`; an absent key reads as the empty
list (`defaultdict(list)` semantics; a present-but-empty list and an absent
key are observationally identical in all the embedded code paths). -/
def getLots : List (String × List Lot) → String → List Lot
  | [], _ => []
  | (k, v) :: rest, token => if k = token then v else getLots rest token

/-- Store a lot list under `token`: replace the first binding of the key, or
append a new binding at the end when the key is absent (Python dicts keep
insertion order and `defaultdict` inserts missing keys at the end). -/
def setLots : List (String × List Lot) → String → List Lot → List (String × List Lot)
  | [], token, ls => [(token, ls)]
  | (k, v) :: rest, token, ls =>
      if k = token then (token, ls) :: rest else (k, v) :: setLots rest token ls

/-- `CostBasisTracker._add_acquisition` (lines 83–105): no-op for a
non-positive quantity, otherwise append one new lot to the token's list with
`cost_per_unit = cost_basis_usd / quantity` (guarded by `quantity > 0`). -/
def add_acquisition (fmt : ℤ → String) (t : CostBasisTracker) (token : String)
    (quantity cost_basis_usd : ℚ) (timestamp : ℤ) (tx_hash : String) :
    CostBasisTracker :=
  if quantity ≤ 0 then t
  else
    let cost_per_unit := if 0 < quantity then cost_basis_usd / quantity else 0
    let lot : Lot :=
      { quantity := quantity
        cost_per_unit := cost_per_unit
        total_cost := cost_basis_usd
        timestamp := timestamp
        tx_hash := tx_hash
        acquisition_date := fmt timestamp }
    { t with lots := setLots t.lots token (getLots t.lots token ++ [lot]) }

/-- The disposal-matching `while` loop of `_process_disposal`
(lines 150–192), in recursive form.  Arguments: the disposal's total
`quantity` and `proceeds_usd`, the disposal `timestamp`, the token's sorted
lot list, and `remaining_to_sell`.  Returns the remaining lot list, the
`lots_used` fragments in consumption order, and the accumulated
`total_cost_basis` (rational addition is associative and commutative, so the
accumulation order cannot change the value). -/
def consumeLots (quantity proceeds_usd : ℚ) (timestamp : ℤ) :
    List Lot → ℚ → List Lot × List LotUsage × ℚ
  | [], _ => ([], [], 0)
  | lot :: rest, remaining =>
    if remaining ≤ tol then (lot :: rest, [], 0)
    else if lot.quantity ≤ remaining then
      let usage : LotUsage :=
        { quantity := lot.quantity
          cost_basis := lot.total_cost
          proceeds := lot.quantity / quantity * proceeds_usd
          acquisition_date := lot.acquisition_date
          holding_period_days := ((timestamp - lot.timestamp : ℤ) : ℚ) / 86400 }
      let r := consumeLots quantity proceeds_usd timestamp rest (remaining - lot.quantity)
      (r.1, usage :: r.2.1, lot.total_cost + r.2.2)
    else
      let cost_from_lot := remaining * lot.cost_per_unit
      let usage : LotUsage :=
        { quantity := remaining
          cost_basis := cost_from_lot
          proceeds := remaining / quantity * proceeds_usd
          acquisition_date := lot.acquisition_date
          holding_period_days := ((timestamp - lot.timestamp : ℤ) : ℚ) / 86400 }
      let lot' : Lot :=
        { lot with
          quantity := lot.quantity - remaining
          total_cost := lot.total_cost - cost_from_lot }
      (lot' :: rest, [usage], cost_from_lot)

/-- The in-place lot sort of `_process_disposal` (lines 144–148):
`self.lots[token].sort(key=lambda x: x['timestamp'])` for FIFO, and the same
with `reverse=True` for any other method string.  Python's `list.sort` is
stable, and a stable sort's output is uniquely determined by the comparator,
so both directions are embedded with Mathlib's stable `insertionSort`
(`reverse=True` keeps ties in input order, which matches `insertionSort`
under the reversed comparator). -/
def sortLots (method : String) (lots : List Lot) : List Lot :=
  if method = "FIFO" then
    lots.insertionSort fun a b => a.timestamp ≤ b.timestamp
  else
    lots.insertionSort fun a b => b.timestamp ≤ a.timestamp

/-- `CostBasisTracker._process_disposal` (lines 107–212).  Returns the
disposal record together with the updated tracker.  The three paths of the
source: non-positive quantity (early return, no state change),
zero-cost-basis (token has no lots: full proceeds recorded as gain, empty
`lots_used`, `note = "zero_cost_basis"`), and lot matching (sort the token's
lots by timestamp — ascending for FIFO, descending otherwise — then consume
them in order). -/
def process_disposal (fmt : ℤ → String) (t : CostBasisTracker) (token : String)
    (quantity proceeds_usd : ℚ) (timestamp : ℤ) (tx_hash : String) :
    DisposalRecord × CostBasisTracker :=
  if quantity ≤ 0 then
    ({ timestamp := timestamp
       tx_hash := tx_hash
       disposal_date := fmt timestamp
       token := token
       quantity_disposed := 0
       total_proceeds := 0
       total_cost_basis := 0
       realized_gain_loss := 0
       lots_used := []
       note := none }, t)
  else if (getLots t.lots token).isEmpty then
    let record : DisposalRecord :=
      { timestamp := timestamp
        tx_hash := tx_hash
        disposal_date := fmt timestamp
        token := token
        quantity_disposed := quantity
        total_proceeds := proceeds_usd
        total_cost_basis := 0
        realized_gain_loss := proceeds_usd
        lots_used := []
        note := some "zero_cost_basis" }
    (record,
      { t with
        disposals := t.disposals ++ [record]
        realized_gains := t.realized_gains ++ [proceeds_usd] })
  else
    let sorted := sortLots t.method (getLots t.lots token)
    let r := consumeLots quantity proceeds_usd timestamp sorted quantity
    let record : DisposalRecord :=
      { timestamp := timestamp
        tx_hash := tx_hash
        disposal_date := fmt timestamp
        token := token
        quantity_disposed := quantity
        total_proceeds := proceeds_usd
        total_cost_basis := r.2.2
        realized_gain_loss := proceeds_usd - r.2.2
        lots_used := r.2.1
        note := none }
    (record,
      { t with
        lots := setLots t.lots token r.1
        disposals := t.disposals ++ [record]
        realized_gains := t.realized_gains ++ [proceeds_usd - r.2.2] })

/-- A ledger operation: the two state-changing calls the driver
(`calculate_cost_basis`) issues against the tracker. -/
inductive LedgerOp where
  | acquisition (token : String) (quantity cost_basis_usd : ℚ)
      (timestamp : ℤ) (tx_hash : String)
  | disposal (token : String) (quantity proceeds_usd : ℚ)
      (timestamp : ℤ) (tx_hash : String)

/-- Apply one ledger operation to a tracker state. -/
def applyOp (fmt : ℤ → String) (t : CostBasisTracker) : LedgerOp → CostBasisTracker
  | .acquisition token q c ts h => add_acquisition fmt t token q c ts h
  | .disposal token q p ts h => (process_disposal fmt t token q p ts h).2

/-- Apply a sequence of ledger operations in order. -/
def applyOps (fmt : ℤ → String) (t : CostBasisTracker) (ops : List LedgerOp) :
    CostBasisTracker :=
  ops.foldl (applyOp fmt) t

/-- `CostBasisTracker.get_realized_gains_for_period` (lines 241–259) filters
the disposal log by `start_date <= d['disposal_date'] <= end_date`, a
lexicographic comparison of Python strings.  `strLeAux` is that comparison on
the code-point lists of the two strings. -/
def strLeAux : List Char → List Char → Bool
  | [], _ => true
  | _ :: _, [] => false
  | c :: cs, d :: ds => if c < d then true else if d < c then false else strLeAux cs ds

/-- Python's `<=` on strings: lexicographic comparison by code point. -/
def strLe (a b : String) : Bool := strLeAux a.data b.data

/-- `CostBasisTracker.get_realized_gains_for_period` (lines 241–259): the
disposal records whose `disposal_date` lies in `[start_date, end_date]`,
both bounds inclusive, in log order.  (The source wraps the result in a
DataFrame; the empty-DataFrame special cases carry no extra content.) -/
def get_realized_gains_for_period (t : CostBasisTracker)
    (start_date end_date : String) : List DisposalRecord :=
  t.disposals.filter fun d =>
    strLe start_date d.disposal_date && strLe d.disposal_date end_date

/-- A transaction row, restricted to the fields the embedded read-side code
consumes (`generate_balance_sheet` and the tax-report symbol lookup):
`timestamp`, `token_contract`, `token_symbol` and `price_usd`.  A NaN
`price_usd` (dropped by `dropna()`) is modelled as `none`.  The list order of
a `List Transaction` is the row order of the DataFrame handed to the code. -/
structure Transaction where
  timestamp : ℤ
  token_contract : String
  token_symbol : String
  price_usd : Option ℚ
  deriving DecidableEq

/-- One asset line of the balance sheet
(`financial_statements.py`, lines 69–77). -/
structure BalanceAsset where
  asset : String
  contract : String
  quantity : ℚ
  cost_basis_usd : ℚ
  price_usd : ℚ
  value_usd : ℚ
  unrealized_gain_loss : ℚ
  deriving DecidableEq

/-- The balance sheet returned by `generate_balance_sheet` (lines 84–90);
the `as_of_date` echo of the input string is omitted. -/
structure BalanceSheet where
  assets : List BalanceAsset
  total_assets : ℚ
  liabilities : ℚ
  equity : ℚ
  deriving DecidableEq

/-- `FinancialStatementsGenerator.generate_balance_sheet`
(`financial_statements.py`, lines 26–90), taking the as-of timestamp
directly (the source derives it from the date string with
`pd.to_datetime(...).timestamp()`, plumbing outside the core).  For each
token of the tracker's lot dict, in insertion order: skip empty lot lists,
keep lots acquired at-or-before the as-of timestamp, skip dust positions
(`abs(total_quantity) < 1e-10`), and price the position with the LAST row,
in the INPUT ROW ORDER of `self.transactions`, among the token's rows with
`timestamp <= as_of` after dropping NaN prices (`price_series.iloc[-1]`).
Assets are finally sorted by descending `abs(value_usd)` (stable
`list.sort`). -/
def generate_balance_sheet (transactions : List Transaction)
    (t : CostBasisTracker) (as_of_timestamp : ℤ) : BalanceSheet :=
  let step := fun (acc : List BalanceAsset × ℚ) (entry : String × List Lot) =>
    let token := entry.1
    let lots := entry.2
    if lots.isEmpty then acc
    else
      let relevant_lots := lots.filter fun l => decide (l.timestamp ≤ as_of_timestamp)
      if relevant_lots.isEmpty then acc
      else
        let total_quantity := (relevant_lots.map Lot.quantity).sum
        let total_cost := (relevant_lots.map Lot.total_cost).sum
        if |total_quantity| < tol then acc
        else
          let token_txs := transactions.filter fun tx =>
            tx.token_contract == token && decide (tx.timestamp ≤ as_of_timestamp)
          let price_series := token_txs.filterMap Transaction.price_usd
          let price_usd := price_series.getLast?.getD 0
          let token_symbol := (token_txs.head?.map Transaction.token_symbol).getD "UNKNOWN"
          let value_usd := total_quantity * price_usd
          (acc.1 ++
            [{ asset := token_symbol
               contract := token
               quantity := total_quantity
               cost_basis_usd := total_cost
               price_usd := price_usd
               value_usd := value_usd
               unrealized_gain_loss := value_usd - total_cost }],
            acc.2 + value_usd)
  let r := t.lots.foldl step ([], 0)
  { assets := r.1.insertionSort fun a b => |b.value_usd| ≤ |a.value_usd|
    total_assets := r.2
    liabilities := 0
    equity := r.2 }

/-- Modelled from the spec: the balance-sheet price rule as §4.3 of the
specification states it — "Price is the most recent `price_usd` observed in
the transaction set for that token at-or-before the as-of timestamp (last
value by timestamp ascending, NaN-dropped); if no price row exists,
price = 0".  Stated as a second, spec-side definition to compare with the
source-side `generate_balance_sheet` above. -/
def specMostRecentPrice (transactions : List Transaction) (token : String)
    (as_of_timestamp : ℤ) : ℚ :=
  let token_txs := transactions.filter fun tx =>
    tx.token_contract == token && decide (tx.timestamp ≤ as_of_timestamp)
  let ascending := token_txs.insertionSort fun a b => a.timestamp ≤ b.timestamp
  ((ascending.filterMap Transaction.price_usd).getLast?).getD 0

/-- One Form-8949-style entry emitted by `WalletAnalyzer.generate_tax_report`
(`wallet_analyzer.py`, lines 340–349). -/
structure Form8949Entry where
  description : String
  date_acquired : String
  date_sold : String
  proceeds : ℚ
  cost_basis : ℚ
  gain_loss : ℚ
  term : String
  tx_hash : String
  deriving DecidableEq

/-- The token-symbol lookup of `generate_tax_report` (lines 334–338): the
`token_symbol` of the first row whose `token_contract` matches, else
`"UNKNOWN"`. -/
def tokenSymbolFor (transactions : List Transaction) (token : String) : String :=
  ((transactions.filter fun tx => tx.token_contract == token).head?.map
    Transaction.token_symbol).getD "UNKNOWN"

/-- The per-fragment body of the tax-report loop
(`wallet_analyzer.py`, lines 317–349): `gain_loss = proceeds − cost_basis`,
short-term when `holding_period_days <= 365` and long-term otherwise, plus
the Form-8949 entry fields.  `qfmt` models the Python numeral formatting
`f"{lot['quantity']:.6f}"` of the description, kept abstract. -/
def mkForm8949Entry (qfmt : ℚ → String) (transactions : List Transaction)
    (d : DisposalRecord) (u : LotUsage) : Form8949Entry :=
  { description := qfmt u.quantity ++ " " ++ tokenSymbolFor transactions d.token
    date_acquired := u.acquisition_date
    date_sold := d.disposal_date
    proceeds := u.proceeds
    cost_basis := u.cost_basis
    gain_loss := u.proceeds - u.cost_basis
    term := if u.holding_period_days ≤ 365 then "Short-term" else "Long-term"
    tx_hash := d.tx_hash }

/-- `f"{tax_year}-01-01"` (line 295). -/
def taxYearStart (tax_year : ℕ) : String := toString tax_year ++ "-01-01"

/-- `f"{tax_year}-12-31"` (line 296). -/
def taxYearEnd (tax_year : ℕ) : String := toString tax_year ++ "-12-31"

/-- The `form_8949_entries` list built by `generate_tax_report`
(lines 303–349): for every disposal of the year's realized-gains range, one
entry per `lots_used` fragment, in log/fragment order (the source appends
inside a nested loop; `flatMap` of `map` is that loop's output).  The four
running gain/loss totals of the source use the same
`holding_days <= 365` test embodied in each entry's `term` field. -/
def form_8949_entries (qfmt : ℚ → String) (transactions : List Transaction)
    (t : CostBasisTracker) (tax_year : ℕ) : List Form8949Entry :=
  (get_realized_gains_for_period t (taxYearStart tax_year) (taxYearEnd tax_year)).flatMap
    fun d => d.lots_used.map (mkForm8949Entry qfmt transactions d)

/-! ### Helper lemmas about the embedded operations -/

theorem getLots_setLots_self (m : List (String × List Lot)) (token : String)
    (ls : List Lot) : getLots (setLots m token ls) token = ls := by
  induction m with
  | nil => simp [setLots, getLots]
  | cons p rest ih =>
    obtain ⟨k, v⟩ := p
    by_cases h : k = token
    · simp [setLots, getLots, h]
    · simp [setLots, getLots, h, ih]

theorem getLots_setLots_ne (m : List (String × List Lot)) (token tok : String)
    (ls : List Lot) (h : tok ≠ token) :
    getLots (setLots m token ls) tok = getLots m tok := by
  induction m with
  | nil => simp [setLots, getLots, Ne.symm h]
  | cons p rest ih =>
    obtain ⟨k, v⟩ := p
    by_cases hk : k = token
    · subst hk
      simp [setLots, getLots, Ne.symm h]
    · simp [setLots, getLots, hk, ih]

theorem mem_sortLots {lot : Lot} (method : String) (lots : List Lot) :
    lot ∈ sortLots method lots ↔ lot ∈ lots := by
  unfold sortLots
  split_ifs <;> exact (List.perm_insertionSort _ _).mem_iff

theorem consumeLots_cost_basis (q p : ℚ) (ts : ℤ) (lots : List Lot) (r : ℚ) :
    (consumeLots q p ts lots r).2.2 =
      ((consumeLots q p ts lots r).2.1.map LotUsage.cost_basis).sum := by
  induction lots generalizing r with
  | nil => simp [consumeLots]
  | cons lot rest ih =>
    simp only [consumeLots]
    split_ifs with h1 h2
    · simp
    · simp [ih]
    · simp

theorem consumeLots_proceeds (q p : ℚ) (ts : ℤ) (lots : List Lot) (r : ℚ) :
    ∀ u ∈ (consumeLots q p ts lots r).2.1, u.proceeds = u.quantity / q * p := by
  induction lots generalizing r with
  | nil => simp [consumeLots]
  | cons lot rest ih =>
    simp only [consumeLots]
    split_ifs with h1 h2
    · simp
    · intro u hu
      simp only [List.mem_cons] at hu
      rcases hu with h | h
      · subst h; rfl
      · exact ih (r - lot.quantity) u h
    · intro u hu
      simp only [List.mem_cons, List.not_mem_nil, or_false] at hu
      subst hu; rfl

theorem consumeLots_provenance (q p : ℚ) (ts : ℤ) (lots : List Lot) (r : ℚ) :
    ∀ lot' ∈ (consumeLots q p ts lots r).1, ∃ lot ∈ lots,
      lot'.cost_per_unit = lot.cost_per_unit ∧ lot'.timestamp = lot.timestamp ∧
        lot'.tx_hash = lot.tx_hash ∧ lot'.acquisition_date = lot.acquisition_date := by
  induction lots generalizing r with
  | nil => simp [consumeLots]
  | cons lot rest ih =>
    simp only [consumeLots]
    split_ifs with h1 h2
    · exact fun l' h => ⟨l', h, rfl, rfl, rfl, rfl⟩
    · intro l' h
      obtain ⟨w, hw, hws⟩ := ih (r - lot.quantity) l' h
      exact ⟨w, List.mem_cons_of_mem _ hw, hws⟩
    · intro l' h
      simp only [List.mem_cons] at h
      rcases h with h | h
      · subst h
        exact ⟨lot, List.mem_cons_self _ _, rfl, rfl, rfl, rfl⟩
      · exact ⟨l', List.mem_cons_of_mem _ h, rfl, rfl, rfl, rfl⟩

theorem consumeLots_preserves (P : Lot → Prop)
    (hupd : ∀ (lot : Lot) (r : ℚ), ¬ lot.quantity ≤ r → P lot →
      P { lot with quantity := lot.quantity - r,
                   total_cost := lot.total_cost - r * lot.cost_per_unit })
    (q p : ℚ) (ts : ℤ) (lots : List Lot) (r : ℚ) (h : ∀ lot ∈ lots, P lot) :
    ∀ lot' ∈ (consumeLots q p ts lots r).1, P lot' := by
  induction lots generalizing r with
  | nil => simp [consumeLots]
  | cons lot rest ih =>
    simp only [consumeLots]
    split_ifs with h1 h2
    · exact h
    · exact ih (r - lot.quantity) fun l hl => h l (List.mem_cons_of_mem _ hl)
    · intro l' hl'
      simp only [List.mem_cons] at hl'
      rcases hl' with hl' | hl'
      · subst hl'
        exact hupd lot r h2 (h lot (List.mem_cons_self _ _))
      · exact h l' (List.mem_cons_of_mem _ hl')

/-! ### Ledger invariants -/

/-- Every lot reachable in the ledger satisfies `P`. -/
def LotsInv (P : Lot → Prop) (t : CostBasisTracker) : Prop :=
  ∀ token : String, ∀ lot ∈ getLots t.lots token, P lot

/-- The lot consistency invariant of the specification:
`total_cost = quantity * cost_per_unit` for every lot held. -/
def CostInv (t : CostBasisTracker) : Prop :=
  LotsInv (fun lot => lot.total_cost = lot.quantity * lot.cost_per_unit) t

/-- Every lot held has strictly positive remaining quantity. -/
def PosInv (t : CostBasisTracker) : Prop :=
  LotsInv (fun lot => 0 < lot.quantity) t

theorem lotsInv_add_acquisition (P : Lot → Prop)
    (hnew : ∀ (q c : ℚ) (ts : ℤ) (h : String) (d : String), ¬ q ≤ 0 →
      P { quantity := q, cost_per_unit := if 0 < q then c / q else 0,
          total_cost := c, timestamp := ts, tx_hash := h, acquisition_date := d })
    (fmt : ℤ → String) (t : CostBasisTracker) (token : String) (q c : ℚ)
    (ts : ℤ) (h : String) (hI : LotsInv P t) :
    LotsInv P (add_acquisition fmt t token q c ts h) := by
  by_cases hq : q ≤ 0
  · simpa [add_acquisition, if_pos hq] using hI
  · intro tok lot hmem
    simp only [add_acquisition, if_neg hq] at hmem
    by_cases htok : tok = token
    · subst htok
      rw [getLots_setLots_self] at hmem
      rcases List.mem_append.mp hmem with h' | h'
      · exact hI tok lot h'
      · simp only [List.mem_cons, List.not_mem_nil, or_false] at h'
        subst h'
        exact hnew q c ts h (fmt ts) hq
    · rw [getLots_setLots_ne _ _ _ _ htok] at hmem
      exact hI tok lot hmem

theorem lotsInv_process_disposal (P : Lot → Prop)
    (hupd : ∀ (lot : Lot) (r : ℚ), ¬ lot.quantity ≤ r → P lot →
      P { lot with quantity := lot.quantity - r,
                   total_cost := lot.total_cost - r * lot.cost_per_unit })
    (fmt : ℤ → String) (t : CostBasisTracker) (token : String) (q p : ℚ)
    (ts : ℤ) (h : String) (hI : LotsInv P t) :
    LotsInv P (process_disposal fmt t token q p ts h).2 := by
  unfold process_disposal
  split_ifs with hq hempty
  · exact hI
  · exact hI
  · intro tok lot' hmem
    simp only at hmem
    by_cases htok : tok = token
    · subst htok
      rw [getLots_setLots_self] at hmem
      refine consumeLots_preserves P hupd q p ts _ q ?_ lot' hmem
      intro lot hlot
      exact hI tok lot ((mem_sortLots _ _).mp hlot)
    · rw [getLots_setLots_ne _ _ _ _ htok] at hmem
      exact hI tok lot' hmem

theorem lotsInv_applyOps (P : Lot → Prop)
    (hnew : ∀ (q c : ℚ) (ts : ℤ) (h : String) (d : String), ¬ q ≤ 0 →
      P { quantity := q, cost_per_unit := if 0 < q then c / q else 0,
          total_cost := c, timestamp := ts, tx_hash := h, acquisition_date := d })
    (hupd : ∀ (lot : Lot) (r : ℚ), ¬ lot.quantity ≤ r → P lot →
      P { lot with quantity := lot.quantity - r,
                   total_cost := lot.total_cost - r * lot.cost_per_unit })
    (fmt : ℤ → String) (method : String) (ops : List LedgerOp) :
    LotsInv P (applyOps fmt (initTracker method) ops) := by
  suffices H : ∀ (t : CostBasisTracker), LotsInv P t →
      LotsInv P (applyOps fmt t ops) by
    refine H _ ?_
    intro tok lot hmem
    simp [initTracker, getLots] at hmem
  induction ops with
  | nil => exact fun t ht => ht
  | cons op rest ih =>
    intro t ht
    refine ih _ ?_
    cases op with
    | acquisition token q c ts h =>
      exact lotsInv_add_acquisition P hnew fmt t token q c ts h ht
    | disposal token q p ts h =>
      exact lotsInv_process_disposal P hupd fmt t token q p ts h ht

theorem add_acquisition_frame (fmt : ℤ → String) (t : CostBasisTracker)
    (token : String) (q c : ℚ) (ts : ℤ) (h : String) :
    (add_acquisition fmt t token q c ts h).disposals = t.disposals ∧
      (add_acquisition fmt t token q c ts h).realized_gains = t.realized_gains ∧
      (add_acquisition fmt t token q c ts h).method = t.method := by
  unfold add_acquisition
  split_ifs <;> simp

/-- The disposal-record accounting identity of the specification, for one
record. -/
def RecordIdentity (d : DisposalRecord) : Prop :=
  d.total_cost_basis = (d.lots_used.map LotUsage.cost_basis).sum ∧
    d.realized_gain_loss = d.total_proceeds - d.total_cost_basis

theorem recordIdentity_process_disposal (fmt : ℤ → String)
    (t : CostBasisTracker) (token : String) (q p : ℚ) (ts : ℤ) (h : String) :
    RecordIdentity (process_disposal fmt t token q p ts h).1 ∧
      ((process_disposal fmt t token q p ts h).2.disposals = t.disposals ∨
        (process_disposal fmt t token q p ts h).2.disposals =
          t.disposals ++ [(process_disposal fmt t token q p ts h).1]) := by
  unfold process_disposal
  split_ifs with hq hempty
  · exact ⟨⟨by simp, by simp⟩, Or.inl rfl⟩
  · exact ⟨⟨by simp, by simp⟩, Or.inr rfl⟩
  · refine ⟨⟨?_, by simp⟩, Or.inr rfl⟩
    simpa using consumeLots_cost_basis q p ts (sortLots t.method (getLots t.lots token)) q

theorem disposalsIdentity_applyOps (fmt : ℤ → String) (method : String)
    (ops : List LedgerOp) :
    ∀ d ∈ (applyOps fmt (initTracker method) ops).disposals, RecordIdentity d := by
  suffices H : ∀ (t : CostBasisTracker), (∀ d ∈ t.disposals, RecordIdentity d) →
      ∀ d ∈ (applyOps fmt t ops).disposals, RecordIdentity d by
    refine H _ ?_
    simp [initTracker]
  induction ops with
  | nil => exact fun t ht => ht
  | cons op rest ih =>
    intro t ht
    refine ih _ ?_
    cases op with
    | acquisition token q c ts h =>
      intro d hd
      simp only [applyOp] at hd
      rw [(add_acquisition_frame fmt t token q c ts h).1] at hd
      exact ht d hd
    | disposal token q p ts h =>
      intro d hd
      simp only [applyOp] at hd
      obtain ⟨hrec, hlog | hlog⟩ := recordIdentity_process_disposal fmt t token q p ts h
      · rw [hlog] at hd
        exact ht d hd
      · rw [hlog] at hd
        rcases List.mem_append.mp hd with h' | h'
        · exact ht d h'
        · simp only [List.mem_cons, List.not_mem_nil, or_false] at h'
          subst h'
          exact hrec

/-! ### Claim theorems -/

/-- Date formatter used for the concrete scenarios: render the epoch
timestamp itself (the formatter is abstract in the embedding, so any choice
that distinguishes timestamps serves the concrete runs). -/
def sampleFmt : ℤ → String := fun ts => toString ts

/-- C2: for every disposal record in the log after any sequence of
acquisitions and disposals replayed from a fresh tracker, `total_cost_basis`
equals the sum of `cost_basis` over the record's lot-usage fragments, and
`realized_gain_loss` equals `total_proceeds` minus `total_cost_basis`,
exactly. -/
theorem claim_C2 (fmt : ℤ → String) (method : String) (ops : List LedgerOp) :
    ∀ d ∈ (applyOps fmt (initTracker method) ops).disposals,
      d.total_cost_basis = (d.lots_used.map LotUsage.cost_basis).sum ∧
        d.realized_gain_loss = d.total_proceeds - d.total_cost_basis :=
  fun d hd => disposalsIdentity_applyOps fmt method ops d hd

/-- The single disposal record produced by the C2 witness scenario: a
disposal of 5 units for 500 USD of a never-acquired token. -/
def c2record : DisposalRecord :=
  { timestamp := 7, tx_hash := "h", disposal_date := "7", token := "T",
    quantity_disposed := 5, total_proceeds := 500, total_cost_basis := 0,
    realized_gain_loss := 500, lots_used := [], note := some "zero_cost_basis" }

/-- Witness for C2 at a concrete replay. -/
theorem claim_C2_witness :
    c2record.total_cost_basis = (c2record.lots_used.map LotUsage.cost_basis).sum ∧
      c2record.realized_gain_loss = c2record.total_proceeds - c2record.total_cost_basis :=
  claim_C2 sampleFmt "FIFO" [.disposal "T" 5 500 7 "h"] c2record (by
    norm_num [applyOps, applyOp, process_disposal, initTracker, getLots, sampleFmt, c2record]
    decide)

/-- C3: a disposal of positive quantity `q` with proceeds `p` for a token
holding no lots appends a disposal record with zero cost basis, gain equal
to the full proceeds, an empty fragment list and the `zero_cost_basis`
marker, appends `p` to the realized-gains list, and leaves the lot state
(and method) unchanged. -/
theorem claim_C3 (fmt : ℤ → String) (t : CostBasisTracker) (token : String)
    (q p : ℚ) (ts : ℤ) (h : String) (hq : 0 < q)
    (hempty : getLots t.lots token = []) :
    (process_disposal fmt t token q p ts h).1.total_cost_basis = 0 ∧
    (process_disposal fmt t token q p ts h).1.realized_gain_loss = p ∧
    (process_disposal fmt t token q p ts h).1.lots_used = [] ∧
    (process_disposal fmt t token q p ts h).1.note = some "zero_cost_basis" ∧
    (process_disposal fmt t token q p ts h).1.quantity_disposed = q ∧
    (process_disposal fmt t token q p ts h).1.total_proceeds = p ∧
    (process_disposal fmt t token q p ts h).2.disposals =
      t.disposals ++ [(process_disposal fmt t token q p ts h).1] ∧
    (process_disposal fmt t token q p ts h).2.realized_gains =
      t.realized_gains ++ [p] ∧
    (process_disposal fmt t token q p ts h).2.lots = t.lots ∧
    (process_disposal fmt t token q p ts h).2.method = t.method := by
  have hq' : ¬ q ≤ 0 := not_le.mpr hq
  simp [process_disposal, hq', hempty]

/-- Witness for C3 at a concrete zero-cost disposal. -/
theorem claim_C3_witness :
    (process_disposal sampleFmt (initTracker "FIFO") "T" 5 500 7 "h").1.total_cost_basis = 0 ∧
    (process_disposal sampleFmt (initTracker "FIFO") "T" 5 500 7 "h").1.realized_gain_loss = 500 ∧
    (process_disposal sampleFmt (initTracker "FIFO") "T" 5 500 7 "h").1.lots_used = [] ∧
    (process_disposal sampleFmt (initTracker "FIFO") "T" 5 500 7 "h").1.note =
      some "zero_cost_basis" ∧
    (process_disposal sampleFmt (initTracker "FIFO") "T" 5 500 7 "h").2.lots =
      (initTracker "FIFO").lots :=
  have hc := claim_C3 sampleFmt (initTracker "FIFO") "T" 5 500 7 "h"
    (by norm_num) (by simp [initTracker, getLots])
  ⟨hc.1, hc.2.1, hc.2.2.1, hc.2.2.2.1, hc.2.2.2.2.2.2.2.2.1⟩

/-- C4: after any sequence of operations from a fresh tracker, every lot
satisfies `total_cost = quantity * cost_per_unit` (exactly, hence within any
floating tolerance); and a disposal never changes the `cost_per_unit` (or
identity) of any surviving lot — every lot after the disposal stems from a
lot held before it, with the same `cost_per_unit`, acquisition timestamp and
source hash. -/
theorem claim_C4 :
    (∀ (fmt : ℤ → String) (method : String) (ops : List LedgerOp),
      CostInv (applyOps fmt (initTracker method) ops)) ∧
    (∀ (fmt : ℤ → String) (t : CostBasisTracker) (token : String) (q p : ℚ)
      (ts : ℤ) (h : String) (tok : String),
      ∀ lot' ∈ getLots ((process_disposal fmt t token q p ts h).2).lots tok,
        ∃ lot ∈ getLots t.lots tok, lot'.cost_per_unit = lot.cost_per_unit ∧
          lot'.timestamp = lot.timestamp ∧ lot'.tx_hash = lot.tx_hash) := by
  constructor
  · intro fmt method ops
    refine lotsInv_applyOps _ ?_ ?_ fmt method ops
    · intro q c ts h d hq
      have hq' : 0 < q := not_le.mp hq
      simp only [if_pos hq']
      rw [mul_comm, div_mul_cancel₀ _ hq'.ne']
    · intro lot r hlt hP
      simp only at hP ⊢
      rw [hP]; ring
  · intro fmt t token q p ts h tok lot' hmem
    by_cases hq : q ≤ 0
    · exact ⟨lot', by simpa [process_disposal, if_pos hq] using hmem, rfl, rfl, rfl⟩
    · by_cases hempty : (getLots t.lots token).isEmpty = true
      · refine ⟨lot', ?_, rfl, rfl, rfl⟩
        simpa [process_disposal, if_neg hq, hempty] using hmem
      · simp only [process_disposal, if_neg hq, if_neg hempty] at hmem
        by_cases htok : tok = token
        · subst htok
          rw [getLots_setLots_self] at hmem
          obtain ⟨w, hw, h1, h2, h3, _⟩ := consumeLots_provenance q p ts _ q lot' hmem
          exact ⟨w, (mem_sortLots _ _).mp hw, h1, h2, h3⟩
        · rw [getLots_setLots_ne _ _ _ _ htok] at hmem
          exact ⟨lot', hmem, rfl, rfl, rfl⟩

/-- The tracker of the C4 witness scenario: one lot of 10 units at cost 100
(cost per unit 10). -/
def c4tracker : CostBasisTracker :=
  { method := "FIFO",
    lots := [("T", [{ quantity := 10, cost_per_unit := 10, total_cost := 100,
                      timestamp := 1, tx_hash := "a", acquisition_date := "1" }])],
    realized_gains := [], disposals := [] }

/-- The surviving lot after the C4 witness disposal of 4 units: 6 units
remain at the same cost per unit. -/
def c4lot : Lot :=
  { quantity := 6, cost_per_unit := 10, total_cost := 60,
    timestamp := 1, tx_hash := "a", acquisition_date := "1" }

/-- Witness for C4: the invariant at a concrete replay, and cost-per-unit
provenance for the lot surviving a concrete partial disposal. -/
theorem claim_C4_witness :
    CostInv (applyOps sampleFmt (initTracker "FIFO")
      [.acquisition "T" 10 100 1 "a", .disposal "T" 4 40 2 "d"]) ∧
    (∃ lot ∈ getLots c4tracker.lots "T", c4lot.cost_per_unit = lot.cost_per_unit ∧
      c4lot.timestamp = lot.timestamp ∧ c4lot.tx_hash = lot.tx_hash) :=
  ⟨claim_C4.1 sampleFmt "FIFO" _,
    claim_C4.2 sampleFmt c4tracker "T" 4 40 2 "d" "T" c4lot (by
      norm_num [process_disposal, c4tracker, c4lot, getLots, setLots, sortLots,
        consumeLots, tol, List.insertionSort, List.orderedInsert, getLots_setLots_self])⟩

/-- C5: every lot-usage fragment of a disposal with positive quantity
receives the proceeds share `(fragment_quantity / quantity_disposed) *
total_proceeds` of the record it belongs to. -/
theorem claim_C5 (fmt : ℤ → String) (t : CostBasisTracker) (token : String)
    (q p : ℚ) (ts : ℤ) (h : String) (hq : 0 < q) :
    ∀ u ∈ (process_disposal fmt t token q p ts h).1.lots_used,
      u.proceeds =
        u.quantity / (process_disposal fmt t token q p ts h).1.quantity_disposed *
          (process_disposal fmt t token q p ts h).1.total_proceeds := by
  have hq' : ¬ q ≤ 0 := not_le.mpr hq
  by_cases hempty : (getLots t.lots token).isEmpty = true
  · simp [process_disposal, hq', hempty]
  · intro u hu
    simp only [process_disposal, if_neg hq', if_neg hempty] at hu ⊢
    exact consumeLots_proceeds q p ts _ q u hu

/-- The first fragment of the C5 witness disposal: 10 units of the 15
disposed, so its proceeds share is 10/15 of the 450 proceeds. -/
def c5usage : LotUsage :=
  { quantity := 10, cost_basis := 100, proceeds := 300,
    acquisition_date := "1", holding_period_days := 1 / 43200 }

/-- The tracker of the C5 witness scenario: the two-lot FIFO ledger of the
specification's worked example. -/
def c5tracker : CostBasisTracker :=
  { method := "FIFO",
    lots := [("T", [{ quantity := 10, cost_per_unit := 10, total_cost := 100,
                      timestamp := 1, tx_hash := "a1", acquisition_date := "1" },
                    { quantity := 10, cost_per_unit := 30, total_cost := 300,
                      timestamp := 2, tx_hash := "a2", acquisition_date := "2" }])],
    realized_gains := [], disposals := [] }

/-- Witness for C5 at a concrete fragment of a concrete disposal. -/
theorem claim_C5_witness :
    c5usage.proceeds =
      c5usage.quantity /
          (process_disposal sampleFmt c5tracker "T" 15 450 3 "d").1.quantity_disposed *
        (process_disposal sampleFmt c5tracker "T" 15 450 3 "d").1.total_proceeds :=
  claim_C5 sampleFmt c5tracker "T" 15 450 3 "d" (by norm_num) c5usage (by
    norm_num [process_disposal, c5tracker, c5usage, getLots, setLots, sortLots,
      consumeLots, tol, List.insertionSort, List.orderedInsert])

/-- C9: lots held by the ledger always have strictly positive quantity —
the invariant holds after any operation sequence from a fresh tracker;
`_add_acquisition` refuses non-positive quantities outright; and the
matching loop maps positive-quantity lot lists to positive-quantity lot
lists (a partial consumption leaves a strictly positive remainder and a full
consumption removes the lot). -/
theorem claim_C9 :
    (∀ (fmt : ℤ → String) (method : String) (ops : List LedgerOp),
      PosInv (applyOps fmt (initTracker method) ops)) ∧
    (∀ (fmt : ℤ → String) (t : CostBasisTracker) (token : String) (q c : ℚ)
      (ts : ℤ) (h : String), q ≤ 0 → add_acquisition fmt t token q c ts h = t) ∧
    (∀ (q p : ℚ) (ts : ℤ) (lots : List Lot) (r : ℚ),
      (∀ lot ∈ lots, 0 < lot.quantity) →
      ∀ lot' ∈ (consumeLots q p ts lots r).1, 0 < lot'.quantity) := by
  refine ⟨?_, ?_, ?_⟩
  · intro fmt method ops
    exact lotsInv_applyOps (fun lot => 0 < lot.quantity)
      (fun q c ts h d hq => not_le.mp hq)
      (fun lot r hlt _ => sub_pos.mpr (not_le.mp hlt)) fmt method ops
  · intro fmt t token q c ts h hq
    simp [add_acquisition, hq]
  · exact fun q p ts lots r hpos =>
      consumeLots_preserves (fun lot => 0 < lot.quantity)
        (fun lot rr hlt _ => sub_pos.mpr (not_le.mp hlt)) q p ts lots r hpos

/-- Witness for C9: the invariant at a concrete replay, and the refusal of a
zero-quantity acquisition. -/
theorem claim_C9_witness :
    PosInv (applyOps sampleFmt (initTracker "FIFO")
      [.acquisition "T" 10 100 1 "a", .disposal "T" 4 40 2 "d"]) ∧
    add_acquisition sampleFmt (initTracker "FIFO") "T" 0 5 1 "a" =
      initTracker "FIFO" :=
  ⟨claim_C9.1 sampleFmt "FIFO" _,
    claim_C9.2.1 sampleFmt (initTracker "FIFO") "T" 0 5 1 "a" (by norm_num)⟩

/-- C10: an acquisition of positive quantity appends exactly one lot to the
token's lot list and changes nothing else — other tokens' lot lists, the
disposal log, the realized-gains list and the method are untouched. -/
theorem claim_C10 (fmt : ℤ → String) (t : CostBasisTracker) (token : String)
    (q c : ℚ) (ts : ℤ) (h : String) (hq : 0 < q) :
    getLots (add_acquisition fmt t token q c ts h).lots token =
      getLots t.lots token ++
        [{ quantity := q, cost_per_unit := c / q, total_cost := c,
           timestamp := ts, tx_hash := h, acquisition_date := fmt ts }] ∧
    (∀ tok : String, tok ≠ token →
      getLots (add_acquisition fmt t token q c ts h).lots tok = getLots t.lots tok) ∧
    (add_acquisition fmt t token q c ts h).disposals = t.disposals ∧
    (add_acquisition fmt t token q c ts h).realized_gains = t.realized_gains ∧
    (add_acquisition fmt t token q c ts h).method = t.method := by
  have hq' : ¬ q ≤ 0 := not_le.mpr hq
  refine ⟨?_, ?_, (add_acquisition_frame fmt t token q c ts h).1,
    (add_acquisition_frame fmt t token q c ts h).2.1,
    (add_acquisition_frame fmt t token q c ts h).2.2⟩
  · simp [add_acquisition, hq', hq, getLots_setLots_self]
  · intro tok htok
    simp [add_acquisition, hq', hq, getLots_setLots_ne _ _ _ _ htok]

/-- Witness for C10 at a concrete acquisition on a fresh tracker. -/
theorem claim_C10_witness :
    getLots (add_acquisition sampleFmt (initTracker "FIFO") "T" 10 100 1 "a").lots "T" =
      getLots (initTracker "FIFO").lots "T" ++
        [{ quantity := 10, cost_per_unit := 100 / 10, total_cost := 100,
           timestamp := 1, tx_hash := "a", acquisition_date := sampleFmt 1 }] ∧
    (add_acquisition sampleFmt (initTracker "FIFO") "T" 10 100 1 "a").disposals =
      (initTracker "FIFO").disposals :=
  have hc := claim_C10 sampleFmt (initTracker "FIFO") "T" 10 100 1 "a" (by norm_num)
  ⟨hc.1, hc.2.2.1⟩

/-- The FIFO run of the specification's worked example: acquisitions
A1(t=1, qty=10, cost=100) and A2(t=2, qty=10, cost=300), then a disposal of
qty=15 at proceeds=450 at t=3. -/
def c1fifo : DisposalRecord × CostBasisTracker :=
  process_disposal sampleFmt
    (add_acquisition sampleFmt
      (add_acquisition sampleFmt (initTracker "FIFO") "TOK" 10 100 1 "a1")
      "TOK" 10 300 2 "a2")
    "TOK" 15 450 3 "d1"

/-- The same scenario on a LIFO tracker. -/
def c1lifo : DisposalRecord × CostBasisTracker :=
  process_disposal sampleFmt
    (add_acquisition sampleFmt
      (add_acquisition sampleFmt (initTracker "LIFO") "TOK" 10 100 1 "a1")
      "TOK" 10 300 2 "a2")
    "TOK" 15 450 3 "d1"

/-- C1: under FIFO the 15-unit disposal consumes all of A1 (10 units, cost
100) and 5 units of A2 (cost 150), so `total_cost_basis = 250` and
`realized_gain_loss = 200`, leaving 5 units of A2; under LIFO it consumes
all of A2 (10 units, cost 300) and 5 units of A1 (cost 50), so
`total_cost_basis = 350` and `realized_gain_loss = 100`, leaving 5 units of
A1.  Fragments are listed as (acquisition date, quantity, cost basis) and
remaining lots as (source hash, quantity, remaining total cost). -/
theorem claim_C1 :
    (c1fifo.1.lots_used.map fun u => (u.acquisition_date, u.quantity, u.cost_basis)) =
      [("1", 10, 100), ("2", 5, 150)] ∧
    c1fifo.1.total_cost_basis = 250 ∧
    c1fifo.1.realized_gain_loss = 200 ∧
    ((getLots c1fifo.2.lots "TOK").map fun l => (l.tx_hash, l.quantity, l.total_cost)) =
      [("a2", 5, 150)] ∧
    (c1lifo.1.lots_used.map fun u => (u.acquisition_date, u.quantity, u.cost_basis)) =
      [("2", 10, 300), ("1", 5, 50)] ∧
    c1lifo.1.total_cost_basis = 350 ∧
    c1lifo.1.realized_gain_loss = 100 ∧
    ((getLots c1lifo.2.lots "TOK").map fun l => (l.tx_hash, l.quantity, l.total_cost)) =
      [("a1", 5, 50)] := by
  norm_num [c1fifo, c1lifo, sampleFmt, process_disposal, add_acquisition, initTracker,
    getLots, setLots, sortLots, consumeLots, tol, List.insertionSort, List.orderedInsert]
  decide

/-- The single lot of the C6 scenario: one unit of token `T` acquired at
timestamp 1. -/
def c6lot : Lot :=
  { quantity := 1, cost_per_unit := 0, total_cost := 0,
    timestamp := 1, tx_hash := "a", acquisition_date := "1" }

/-- The tracker holding `c6lot`. -/
def c6tracker : CostBasisTracker :=
  { method := "FIFO", lots := [("T", [c6lot])], realized_gains := [], disposals := [] }

/-- The transaction set of the C6 scenario, in the row order the pipeline
actually hands to `FinancialStatementsGenerator` (`analyze_wallet` caches the
output of `calculate_cost_basis`, which is re-sorted NEWEST FIRST before
being returned, lines 78–79 of `cost_basis_tracker.py`): the t=2 row with
price 20 comes before the t=1 row with price 10. -/
def c6txs : List Transaction :=
  [{ timestamp := 2, token_contract := "T", token_symbol := "T", price_usd := some 20 },
   { timestamp := 1, token_contract := "T", token_symbol := "T", price_usd := some 10 }]

/-- C6: the balance-sheet price is NOT the most recent price regardless of
row order.  `generate_balance_sheet` takes `price_series.iloc[-1]` in the
input's row order without sorting by timestamp; on the pipeline's
newest-first row order it reports the OLDEST price (10 here), while the
specification's most-recent-price rule yields 20. -/
theorem claim_C6_price_bug :
    ((generate_balance_sheet c6txs c6tracker 2).assets.map BalanceAsset.price_usd) =
      [10] ∧
    specMostRecentPrice c6txs "T" 2 = 20 := by
  constructor
  · norm_num [generate_balance_sheet, c6txs, c6tracker, c6lot, tol,
      List.insertionSort, List.orderedInsert]
  · norm_num [specMostRecentPrice, c6txs, List.insertionSort, List.orderedInsert]

/-- C8: every Form-8949 entry of a tax report stems from a lot-usage
fragment of a disposal in the year's range and is labelled short-term when
that fragment's `holding_period_days ≤ 365` and long-term when it exceeds
365; in particular a fragment held exactly 365.0 days is short-term and one
held 365.0001 days is long-term. -/
theorem claim_C8 :
    (∀ (qfmt : ℚ → String) (transactions : List Transaction)
      (t : CostBasisTracker) (tax_year : ℕ),
      ∀ e ∈ form_8949_entries qfmt transactions t tax_year,
        ∃ d ∈ get_realized_gains_for_period t (taxYearStart tax_year) (taxYearEnd tax_year),
          ∃ u ∈ d.lots_used, e = mkForm8949Entry qfmt transactions d u ∧
            (u.holding_period_days ≤ 365 → e.term = "Short-term") ∧
            (365 < u.holding_period_days → e.term = "Long-term")) ∧
    (∀ (qfmt : ℚ → String) (transactions : List Transaction)
      (d : DisposalRecord) (u : LotUsage), u.holding_period_days = 365 →
      (mkForm8949Entry qfmt transactions d u).term = "Short-term") ∧
    (∀ (qfmt : ℚ → String) (transactions : List Transaction)
      (d : DisposalRecord) (u : LotUsage), u.holding_period_days = 3650001 / 10000 →
      (mkForm8949Entry qfmt transactions d u).term = "Long-term") := by
  refine ⟨?_, ?_, ?_⟩
  · intro qfmt transactions t tax_year e he
    simp only [form_8949_entries, List.mem_flatMap, List.mem_map] at he
    obtain ⟨d, hd, u, hu, heq⟩ := he
    refine ⟨d, hd, u, hu, heq.symm, ?_, ?_⟩
    · intro hshort
      rw [← heq]
      simp [mkForm8949Entry, hshort]
    · intro hlong
      rw [← heq]
      simp [mkForm8949Entry, not_le.mpr hlong]
  · intro qfmt transactions d u hu
    simp [mkForm8949Entry, hu]
  · intro qfmt transactions d u hu
    have : ¬ u.holding_period_days ≤ 365 := by rw [hu]; norm_num
    simp [mkForm8949Entry, this]

/-- A fragment held exactly 365 days. -/
def c8short : LotUsage :=
  { quantity := 1, cost_basis := 10, proceeds := 30,
    acquisition_date := "2024-06-01", holding_period_days := 365 }

/-- A fragment held 365.0001 days. -/
def c8long : LotUsage :=
  { quantity := 2, cost_basis := 20, proceeds := 15,
    acquisition_date := "2024-06-01", holding_period_days := 3650001 / 10000 }

/-- The 2025 disposal record carrying the two boundary fragments. -/
def c8disposal : DisposalRecord :=
  { timestamp := 0, tx_hash := "h", disposal_date := "2025-06-01", token := "T",
    quantity_disposed := 3, total_proceeds := 45, total_cost_basis := 30,
    realized_gain_loss := 15, lots_used := [c8short, c8long], note := none }

/-- A tracker whose disposal log holds `c8disposal`. -/
def c8tracker : CostBasisTracker :=
  { method := "FIFO", lots := [], realized_gains := [15], disposals := [c8disposal] }

/-- A concrete stand-in for the abstract quantity formatter. -/
def c8qfmt : ℚ → String := fun _ => "q"

/-- Witness for C8: the first entry of the concrete 2025 tax report is traced
to its fragment, and the two boundary fragments are labelled short- and
long-term respectively. -/
theorem claim_C8_witness :
    (∃ d ∈ get_realized_gains_for_period c8tracker (taxYearStart 2025) (taxYearEnd 2025),
      ∃ u ∈ d.lots_used,
        mkForm8949Entry c8qfmt [] c8disposal c8short = mkForm8949Entry c8qfmt [] d u ∧
          (u.holding_period_days ≤ 365 →
            (mkForm8949Entry c8qfmt [] c8disposal c8short).term = "Short-term") ∧
          (365 < u.holding_period_days →
            (mkForm8949Entry c8qfmt [] c8disposal c8short).term = "Long-term")) ∧
    (mkForm8949Entry c8qfmt [] c8disposal c8short).term = "Short-term" ∧
    (mkForm8949Entry c8qfmt [] c8disposal c8long).term = "Long-term" :=
  ⟨claim_C8.1 c8qfmt [] c8tracker 2025 (mkForm8949Entry c8qfmt [] c8disposal c8short)
      (List.mem_cons_self _ _),
    claim_C8.2.1 c8qfmt [] c8disposal c8short rfl,
    claim_C8.2.2 c8qfmt [] c8disposal c8long rfl⟩

end WalletFS
